import Mathlib

/-!
# mongo-crud-embedded: users with embedded posts

A shallow embedding of `src/main.go`.  The five `UserStore` methods are
translated from the source.  The document collection they talk to (the MongoDB
driver) is an external collaborator; it is modelled here as an explicit state
(`Collection`) that is passed through every call.

Conventions of the model:

* a Go `string` is a `String`, its `len` the number of UTF-8 bytes;
* `Likes uint` is a `Nat`: the source does no arithmetic on it;
* a Go slice is a `List`; a `nil` slice and an empty one are not distinguished;
* the collection answers every request: network failures, timeouts and
  cancellation through `ctx` are not part of the state;
* the field tags of the source are honoured: `omitempty` on `_id` means that an
  empty `ID` is not stored at all.
-/

namespace MongoCrud

/-! ## Errors -/

/-- The error values the store methods can return. -/
inductive Error where
  /-- The error of `primitive.ObjectIDFromHex`: the validation error. -/
  | ErrInvalidHex
  /-- The driver's `mongo.ErrNoDocuments`. -/
  | ErrNoDocuments
  /-- A write the collection rejects (duplicate key, malformed update). -/
  | WriteError
  /-- The value of `errors.New("no document modified")`. -/
  | NoDocumentModified
  deriving DecidableEq, Repr

/-- The text `err.Error()` yields, as far as `main` looks at it. -/
def Error.text : Error → String
  | .ErrInvalidHex => "the provided hex string is not a valid ObjectID"
  | .ErrNoDocuments => "mongo: no documents in result"
  | .WriteError => "write exception"
  | .NoDocumentModified => "no document modified"

deriving instance DecidableEq for Except

/-- A Go call either returns its values or panics. -/
inductive Outcome (α : Type) where
  | returned (v : α)
  | panicked
  deriving DecidableEq, Repr

/-! ## Object identifiers and their hexadecimal rendering -/

/-- Modelled from the spec: the store's native key format, the driver's
`primitive.ObjectID`, a `[12]byte`. -/
abbrev ObjectID := { bs : List (Fin 256) // bs.length = 12 }

/-- Modelled from the spec: the digit table `"0123456789abcdef"` of Go's
`encoding/hex`, used to render a key. -/
def hexDigit (n : Nat) : Char :=
  if n < 10 then Char.ofNat (48 + n) else Char.ofNat (87 + n)

/-- Modelled from the spec: `fromHexChar` of Go's `encoding/hex`, the value
of one hexadecimal digit, either case. -/
def fromHexChar (c : Char) : Option Nat :=
  if 48 ≤ c.toNat ∧ c.toNat ≤ 57 then some (c.toNat - 48)
  else if 97 ≤ c.toNat ∧ c.toNat ≤ 102 then some (c.toNat - 97 + 10)
  else if 65 ≤ c.toNat ∧ c.toNat ≤ 70 then some (c.toNat - 65 + 10)
  else none

/-- Whether a character is one of `0-9`, `a-f`, `A-F`. -/
def isHexChar (c : Char) : Bool := (fromHexChar c).isSome

/-- Modelled from the spec: Go's `hex.Decode`, two digits per byte, failing
at the first bad digit. -/
def decodeHex : List Char → Option (List (Fin 256))
  | [] => some []
  | [_] => none
  | a :: b :: rest =>
    match fromHexChar a, fromHexChar b with
    | some x, some y =>
      match decodeHex rest with
      | some bs => some (Fin.ofNat (x * 16 + y) :: bs)
      | none => none
    | _, _ => none

/-- Modelled from the spec: Go's `hex.Encode` on a byte sequence. -/
def encodeHex : List (Fin 256) → List Char
  | [] => []
  | b :: bs => hexDigit (b.val / 16) :: hexDigit (b.val % 16) :: encodeHex bs

/-- Modelled from the spec: the driver's `ObjectID.Hex`, the 24-character
lower-case rendering of a key. -/
def ObjectID.Hex (o : ObjectID) : String := String.mk (encodeHex o.val)

/-- Modelled from the spec: the driver's `primitive.ObjectIDFromHex`, which
parses an identifier into the native key format and fails on a malformed one:
the string must be 24 bytes long and every byte a hexadecimal digit.  The last
test cannot fail (24 digits always give 12 bytes); it supplies the length
proof. -/
def ObjectIDFromHex (s : String) : Except Error ObjectID :=
  if s.utf8ByteSize ≠ 24 then .error .ErrInvalidHex
  else
    match decodeHex s.data with
    | none => .error .ErrInvalidHex
    | some bs => if h : bs.length = 12 then .ok ⟨bs, h⟩ else .error .ErrInvalidHex

/-- The reading of "well formed" in the specification: exactly 24 characters,
each a hexadecimal digit. -/
def WellFormedID (s : String) : Prop :=
  s.length = 24 ∧ ∀ c ∈ s.data, isHexChar c = true

/-! ## Data model (`src/main.go`, lines 91-102) -/

/-- Go `Post`.  The tag on `ID` is `bson:"_id,omitempty"`: an empty `ID` is
not written, so the stored element then has no `_id` field. -/
structure Post where
  ID : String
  Title : String
  Body : String
  Likes : Nat
  deriving DecidableEq, Repr

/-- Go `User`.  The tag on `ID` is `bson:"_id,omitempty"`. -/
structure User where
  ID : String
  Username : String
  Posts : List Post
  deriving DecidableEq, Repr

/-- The zero value `User{}`. -/
def User.zero : User := ⟨"", "", []⟩

/-! ## The document collection -/

/-- Modelled from the spec: the `_id` of a stored user document, an object
identifier, or the string the caller put in `User.ID`. -/
inductive Key where
  | objectID (o : ObjectID)
  | string (s : String)
  deriving DecidableEq

/-- Modelled from the spec: the persisted record of section 6,
`User { _id, username, posts: [ Post ... ] }`.  The posts are kept as the Go
values they were encoded from; a post with an empty `ID` stands for an element
without `_id` field. -/
structure Document where
  _id : Key
  username : String
  posts : List Post
  deriving DecidableEq

/-- Modelled from the spec: the document store collaborator of section 6, a
collection of user documents in which `_id` is the unique key.  `requests`
counts the requests the collection has received. -/
structure Collection where
  docs : List Document
  requests : Nat
  deriving DecidableEq

/-- The document stored under a key (the first one, should the list repeat a
key). -/
def lookup (k : Key) : List Document → Option Document
  | [] => none
  | d :: ds => if d._id = k then some d else lookup k ds

/-- Put `d` in the place of the document stored under key `k`. -/
def replaceDoc (k : Key) (d : Document) : List Document → List Document
  | [] => []
  | x :: xs => if x._id = k then d :: xs else x :: replaceDoc k d xs

/-- Modelled from the spec: whether the stored element has an `_id` field
equal to `postID`, which is what the conditions `"posts._id": postID` (line
166) and `{"_id": postID}` (line 187) test on one array element.  By the tag
`bson:"_id,omitempty"` (line 98) an element written from a post with empty
`ID` has no `_id` field, and an element without the field satisfies no
equality on it, not even with the empty string. -/
def Post.hasID (p : Post) (postID : String) : Bool :=
  p.ID != "" && p.ID == postID

/-- The two filters of the source: `{"_id": objID}` when `postsID` is `none`,
`{"_id": objUserID, "posts._id": postID}` when it is `some postID`. -/
structure Filter where
  _id : ObjectID
  postsID : Option String

/-- The part of the filter beyond `_id`, checked on a document. -/
def Filter.matchesPosts (f : Filter) (d : Document) : Bool :=
  match f.postsID with
  | none => true
  | some postID => d.posts.any (fun p => p.hasID postID)

/-- The three changesets of the source. -/
inductive Update where
  /-- The changeset `{"$push": {"posts": {"$each": posts}}}`. -/
  | pushEach (posts : List Post)
  /-- The changeset `{"$set": {"posts.$": post}}`. -/
  | setPositional (post : Post)
  /-- The changeset `{"$pull": {"posts": {"_id": postID}}}`. -/
  | pull (postID : String)

/-- Replace the first element that satisfies `q`. -/
def replaceFirst (q : Post → Bool) (p : Post) : List Post → List Post
  | [] => []
  | x :: xs => if q x then p :: xs else x :: replaceFirst q p xs

/-- Modelled from the spec: the three update semantics of section 6:
(a) append to the array, (b) positional replacement of the first array element
the filter matched, (c) removal of every matching array element. -/
def applyUpdate (f : Filter) (u : Update) (d : Document) : Except Error Document :=
  match u with
  | .pushEach ps => .ok { d with posts := d.posts ++ ps }
  | .setPositional p =>
    match f.postsID with
    | none => .error .WriteError
    | some postID => .ok { d with posts := replaceFirst (fun x => x.hasID postID) p d.posts }
  | .pull postID => .ok { d with posts := d.posts.filter (fun x => !x.hasID postID) }

/-- Modelled from the spec: the driver's `UpdateResult`, the counts an update
reports. -/
structure UpdateResult where
  MatchedCount : Nat
  ModifiedCount : Nat
  deriving DecidableEq, Repr

/-- Modelled from the spec: `Collection.UpdateOne`.  At most one document is
updated; the modified count is the number of records the update actually
changed (glossary), so an update that leaves the document as it was counts
zero. -/
def Collection.UpdateOne (c : Collection) (f : Filter) (u : Update) :
    Collection × Except Error UpdateResult :=
  let c1 : Collection := { c with requests := c.requests + 1 }
  match lookup (.objectID f._id) c.docs with
  | none => (c1, .ok ⟨0, 0⟩)
  | some d =>
    if f.matchesPosts d then
      match applyUpdate f u d with
      | .error e => (c1, .error e)
      | .ok d1 =>
        if d1 = d then (c1, .ok ⟨1, 0⟩)
        else ({ c1 with docs := replaceDoc (.objectID f._id) d1 c.docs }, .ok ⟨1, 1⟩)
    else (c1, .ok ⟨0, 0⟩)

/-- Modelled from the spec: `Collection.FindOne` with the filter
`{"_id": objID}`. -/
def Collection.FindOne (c : Collection) (objID : ObjectID) :
    Collection × Option Document :=
  ({ c with requests := c.requests + 1 }, lookup (.objectID objID) c.docs)

/-- Modelled from the spec: `Collection.InsertOne`.  By the `omitempty` tag a
user with empty `ID` is written without `_id`, and the key `gen` generated for
the write is used; otherwise the string in `ID` is the key.  A key already in
the collection is rejected. -/
def Collection.InsertOne (c : Collection) (gen : ObjectID) (user : User) :
    Collection × Except Error Key :=
  let c1 : Collection := { c with requests := c.requests + 1 }
  let k : Key := if user.ID = "" then .objectID gen else .string user.ID
  match lookup k c.docs with
  | some _ => (c1, .error .WriteError)
  | none => ({ c1 with docs := c.docs ++ [⟨k, user.Username, user.Posts⟩] }, .ok k)

/-- Modelled from the spec: decoding a stored document into a Go `User`
(`Decode(&user)`, line 136); an object identifier is decoded into the string
field as its hexadecimal rendering. -/
def Document.decode (d : Document) : User :=
  { ID := match d._id with
          | .objectID o => o.Hex
          | .string s => s
    Username := d.username
    Posts := d.posts }

/-! ## The store (`src/main.go`, lines 114-199) -/

/-- Go `UserStore`; the collection behind the pointer is the state. -/
structure UserStore where
  coll : Collection
  deriving DecidableEq

/-- Go `UserStore.Insert`.  `gen` is the key generated for the write. -/
def UserStore.Insert (s : UserStore) (gen : ObjectID) (user : User) :
    UserStore × Outcome (User × Option Error) :=
  match s.coll.InsertOne gen user with
  | (c, .error err) => (⟨c⟩, .returned (user, some err))
  | (c, .ok (.objectID o)) => (⟨c⟩, .returned ({ user with ID := o.Hex }, none))
  | (c, .ok (.string _)) => (⟨c⟩, .panicked)

/-- Go `UserStore.FindByID`. -/
def UserStore.FindByID (s : UserStore) (id : String) :
    UserStore × (User × Option Error) :=
  match ObjectIDFromHex id with
  | .error err => (s, (User.zero, some err))
  | .ok objID =>
    match s.coll.FindOne objID with
    | (c, none) => (⟨c⟩, (User.zero, some .ErrNoDocuments))
    | (c, some d) => (⟨c⟩, (d.decode, none))

/-- The tail shared by the three update methods: the error of the request, or
the check of `r.ModifiedCount`. -/
def checkModified : Except Error UpdateResult → Option Error
  | .error err => some err
  | .ok r => if r.ModifiedCount = 0 then some .NoDocumentModified else none

/-- Go `UserStore.AddPosts`. -/
def UserStore.AddPosts (s : UserStore) (userID : String) (posts : List Post) :
    UserStore × Option Error :=
  match ObjectIDFromHex userID with
  | .error err => (s, some err)
  | .ok objID =>
    let r := s.coll.UpdateOne ⟨objID, none⟩ (.pushEach posts)
    (⟨r.1⟩, checkModified r.2)

/-- Go `UserStore.UpdatePost`. -/
def UserStore.UpdatePost (s : UserStore) (userID postID : String) (post : Post) :
    UserStore × Option Error :=
  match ObjectIDFromHex userID with
  | .error err => (s, some err)
  | .ok objUserID =>
    let r := s.coll.UpdateOne ⟨objUserID, some postID⟩ (.setPositional post)
    (⟨r.1⟩, checkModified r.2)

/-- Go `UserStore.DeletePost`. -/
def UserStore.DeletePost (s : UserStore) (userID postID : String) :
    UserStore × Option Error :=
  match ObjectIDFromHex userID with
  | .error err => (s, some err)
  | .ok objUserID =>
    let r := s.coll.UpdateOne ⟨objUserID, none⟩ (.pull postID)
    (⟨r.1⟩, checkModified r.2)

instance (s : String) : Decidable (WellFormedID s) := by
  unfold WellFormedID
  infer_instance

/-! ## Sample values -/

/-- A sample generated key. -/
def sampleKey : ObjectID :=
  ⟨[0x65, 0x4f, 0x1a, 0x2b, 0x3c, 0x4d, 0x5e, 0x6f, 0x70, 0x81, 0x92, 0x03], rfl⟩

/-- The rendering of the sample key. -/
def sampleID : String := "654f1a2b3c4d5e6f70819203"

/-- The first post of the demonstration in the source. -/
def p1 : Post := ⟨"p1", "aaaa", "abccdcasc", 999⟩

/-- The second post of the demonstration. -/
def p2 : Post := ⟨"p2", "bbbb", "qqqqqq", 1111⟩

/-- The third post of the demonstration. -/
def p3 : Post := ⟨"p3", "cccc", "wwwwww", 2222⟩

/-- A post the caller gave no identifier. -/
def q1 : Post := ⟨"", "dddd", "eeee", 1⟩

/-- A second post without identifier. -/
def q2 : Post := ⟨"", "ffff", "gggg", 2⟩

/-- The empty collection. -/
def emptyStore : UserStore := ⟨⟨[], 0⟩⟩

/-- The store after `Insert` of user "tira" with the posts `ps` into the
empty collection, the sample key being the generated one. -/
def insertedStore (ps : List Post) : UserStore :=
  (emptyStore.Insert sampleKey ⟨"", "tira", ps⟩).1

/-- A store holding one user with the posts `ps` under the sample key. -/
def storeWith (ps : List Post) : UserStore :=
  ⟨⟨[⟨.objectID sampleKey, "tira", ps⟩], 0⟩⟩


/-! ## Hexadecimal rendering: lemmas -/

theorem fromHexChar_hexDigit (n : Nat) (h : n < 16) : fromHexChar (hexDigit n) = some n := by
  interval_cases n <;> decide

theorem hexDigit_utf8Size (n : Nat) (h : n < 16) : (hexDigit n).utf8Size = 1 := by
  interval_cases n <;> decide

theorem utf8Size_of_toNat_le (c : Char) (h : c.toNat ≤ 127) : c.utf8Size = 1 := by
  have h1 : c.val.toNat ≤ 127 := h
  have h2 : c.val ≤ 127 := by
    rw [UInt32.le_def]
    exact h1
  simp [Char.utf8Size, h2]

theorem isHexChar_toNat_le (c : Char) (h : isHexChar c = true) : c.toNat ≤ 127 := by
  unfold isHexChar fromHexChar at h
  split_ifs at h with h1 h2 h3
  · omega
  · omega
  · omega
  · simp at h

theorem decodeHex_encodeHex (bs : List (Fin 256)) : decodeHex (encodeHex bs) = some bs := by
  induction bs with
  | nil => rfl
  | cons b bs ih =>
    have hb := b.isLt
    have e : Fin.ofNat (b.val / 16 * 16 + b.val % 16) = b := by
      apply Fin.ext
      simp only [Fin.ofNat, Fin.val_mk]
      omega
    simp only [encodeHex, decodeHex, fromHexChar_hexDigit (b.val / 16) (by omega),
      fromHexChar_hexDigit (b.val % 16) (Nat.mod_lt _ (by decide)), ih, e]

theorem utf8Len_encodeHex (bs : List (Fin 256)) :
    String.utf8Len (encodeHex bs) = 2 * bs.length := by
  induction bs with
  | nil => rfl
  | cons b bs ih =>
    have hb := b.isLt
    simp only [encodeHex, String.utf8Len_cons, ih, List.length_cons,
      hexDigit_utf8Size (b.val / 16) (by omega),
      hexDigit_utf8Size (b.val % 16) (Nat.mod_lt _ (by decide))]
    omega

theorem length_encodeHex (bs : List (Fin 256)) : (encodeHex bs).length = 2 * bs.length := by
  induction bs with
  | nil => rfl
  | cons b bs ih => simp only [encodeHex, List.length_cons, ih]; omega

theorem isHexChar_hexDigit (n : Nat) (h : n < 16) : isHexChar (hexDigit n) = true := by
  simp [isHexChar, fromHexChar_hexDigit n h]

theorem isHexChar_encodeHex (bs : List (Fin 256)) : ∀ c ∈ encodeHex bs, isHexChar c = true := by
  induction bs with
  | nil => intro c hc; cases hc
  | cons b bs ih =>
    have hb := b.isLt
    intro c hc
    simp only [encodeHex, List.mem_cons] at hc
    rcases hc with rfl | rfl | hc
    · exact isHexChar_hexDigit _ (by omega)
    · exact isHexChar_hexDigit _ (Nat.mod_lt _ (by decide))
    · exact ih c hc

/-- Parsing the rendering of a key gives the key back. -/
theorem ObjectIDFromHex_Hex (o : ObjectID) : ObjectIDFromHex o.Hex = .ok o := by
  obtain ⟨bs, hlen⟩ := o
  have h1 : (String.mk (encodeHex bs)).utf8ByteSize = 24 := by
    rw [String.utf8ByteSize_mk, utf8Len_encodeHex, hlen]
  simp only [ObjectIDFromHex, ObjectID.Hex, h1, ne_eq, not_true_eq_false, if_false,
    decodeHex_encodeHex, hlen, dite_true]

theorem decodeHex_isHex : ∀ (l : List Char) (bs : List (Fin 256)),
    decodeHex l = some bs → (∀ c ∈ l, isHexChar c = true) ∧ l.length = 2 * bs.length
  | [], bs, h => by
    simp only [decodeHex, Option.some.injEq] at h
    subst h
    simp
  | [_], bs, h => by simp [decodeHex] at h
  | a :: b :: rest, bs, h => by
    simp only [decodeHex] at h
    cases ha : fromHexChar a with
    | none => simp [ha] at h
    | some x =>
      cases hb : fromHexChar b with
      | none => simp [ha, hb] at h
      | some y =>
        cases hr : decodeHex rest with
        | none => simp [ha, hb, hr] at h
        | some bs1 =>
          simp only [ha, hb, hr, Option.some.injEq] at h
          subst h
          obtain ⟨ih1, ih2⟩ := decodeHex_isHex rest bs1 hr
          refine ⟨?_, ?_⟩
          · intro c hc
            simp only [List.mem_cons] at hc
            rcases hc with rfl | rfl | hc
            · simp [isHexChar, ha]
            · simp [isHexChar, hb]
            · exact ih1 c hc
          · simp only [List.length_cons, ih2]; omega

theorem utf8Len_of_isHex (l : List Char) (h : ∀ c ∈ l, isHexChar c = true) :
    String.utf8Len l = l.length := by
  induction l with
  | nil => rfl
  | cons a l ih =>
    have ha := utf8Size_of_toNat_le a (isHexChar_toNat_le a (h a (List.mem_cons_self _ _)))
    simp only [String.utf8Len_cons, List.length_cons, ha,
      ih (fun c hc => h c (List.mem_cons_of_mem _ hc))]

theorem decodeHex_of_isHex : ∀ (n : Nat) (l : List Char),
    (∀ c ∈ l, isHexChar c = true) → l.length = 2 * n →
    ∃ bs, decodeHex l = some bs ∧ bs.length = n
  | 0, l, _, hl => by
    have : l = [] := List.length_eq_zero.mp (by omega)
    subst this
    exact ⟨[], rfl, rfl⟩
  | n + 1, [], _, hl => by simp at hl
  | n + 1, [_], _, hl => by simp at hl; omega
  | n + 1, a :: b :: rest, h, hl => by
    have ha := h a (by simp)
    have hb := h b (by simp)
    simp only [isHexChar, Option.isSome_iff_exists] at ha hb
    obtain ⟨x, hx⟩ := ha
    obtain ⟨y, hy⟩ := hb
    obtain ⟨bs, hbs, hlen⟩ := decodeHex_of_isHex n rest
      (fun c hc => h c (by simp [hc])) (by simp at hl; omega)
    refine ⟨Fin.ofNat (x * 16 + y) :: bs, ?_, ?_⟩
    · simp only [decodeHex, hx, hy, hbs]
    · simp [hlen]

/-- A well-formed identifier parses. -/
theorem ObjectIDFromHex_of_wellFormed (s : String) (h : WellFormedID s) :
    ∃ o, ObjectIDFromHex s = .ok o := by
  obtain ⟨hlen, hhex⟩ := h
  obtain ⟨l⟩ := s
  simp only [String.length] at hlen
  obtain ⟨bs, hbs, hl⟩ := decodeHex_of_isHex 12 l hhex (by omega)
  have h1 : (String.mk l).utf8ByteSize = 24 := by
    rw [String.utf8ByteSize_mk, utf8Len_of_isHex l hhex, hlen]
  exact ⟨⟨bs, hl⟩, by simp only [ObjectIDFromHex, h1, ne_eq, not_true_eq_false, if_false, hbs, hl, dite_true]⟩

/-- An identifier that parses is well formed. -/
theorem wellFormed_of_ObjectIDFromHex (s : String) (o : ObjectID)
    (h : ObjectIDFromHex s = .ok o) : WellFormedID s := by
  obtain ⟨l⟩ := s
  unfold ObjectIDFromHex at h
  split_ifs at h with h1
  cases hd : decodeHex l with
  | none => simp [hd] at h
  | some bs =>
    obtain ⟨hhex, _⟩ := decodeHex_isHex l bs hd
    refine ⟨?_, hhex⟩
    have := utf8Len_of_isHex l hhex
    rw [String.utf8ByteSize_mk] at h1
    simp only [String.length]
    omega

/-- A malformed identifier is rejected with the validation error. -/
theorem ObjectIDFromHex_of_malformed (s : String) (h : ¬ WellFormedID s) :
    ObjectIDFromHex s = .error .ErrInvalidHex := by
  cases hp : ObjectIDFromHex s with
  | ok o => exact absurd (wellFormed_of_ObjectIDFromHex s o hp) h
  | error e =>
    unfold ObjectIDFromHex at hp
    split_ifs at hp with h1
    · simp at hp; rw [hp]
    · split at hp
      · simp at hp; rw [hp]
      · split_ifs at hp with h2
        simp at hp; rw [hp]

/-! ## The collection: lemmas -/

theorem lookup_key (k : Key) (ds : List Document) (d : Document)
    (h : lookup k ds = some d) : d._id = k := by
  induction ds with
  | nil => simp [lookup] at h
  | cons x xs ih =>
    simp only [lookup] at h
    split_ifs at h with hx
    · simp only [Option.some.injEq] at h
      rw [← h]; exact hx
    · exact ih h

theorem lookup_replaceDoc (k : Key) (ds : List Document) (d d1 : Document)
    (h : lookup k ds = some d) (hk : d1._id = k) :
    lookup k (replaceDoc k d1 ds) = some d1 := by
  induction ds with
  | nil => simp [lookup] at h
  | cons x xs ih =>
    simp only [lookup] at h
    simp only [replaceDoc]
    split_ifs at h with hx
    · simp [hx, lookup, hk]
    · simp [hx, lookup, ih h]

theorem lookup_append_new (k : Key) (ds : List Document) (d : Document)
    (h : lookup k ds = none) (hk : d._id = k) : lookup k (ds ++ [d]) = some d := by
  induction ds with
  | nil => simp [lookup, hk]
  | cons x xs ih =>
    simp only [lookup] at h
    split_ifs at h with hx
    simp [lookup, hx, ih h]

theorem decode_with_posts (d : Document) (ps : List Post) :
    ({ d with posts := ps } : Document).decode = { d.decode with Posts := ps } := rfl

theorem with_posts_eq_iff (d : Document) (ps : List Post) :
    ({ d with posts := ps } : Document) = d ↔ ps = d.posts := by
  cases d
  simp

/-! ## The store methods, case by case -/

theorem FindByID_found (s : UserStore) (id : String) (o : ObjectID) (d : Document)
    (hp : ObjectIDFromHex id = .ok o) (hl : lookup (.objectID o) s.coll.docs = some d) :
    (s.FindByID id).2 = (d.decode, none) := by
  simp [UserStore.FindByID, hp, Collection.FindOne, hl]

theorem FindByID_missing (s : UserStore) (id : String) (o : ObjectID)
    (hp : ObjectIDFromHex id = .ok o) (hl : lookup (.objectID o) s.coll.docs = none) :
    (s.FindByID id).2 = (User.zero, some .ErrNoDocuments) := by
  simp [UserStore.FindByID, hp, Collection.FindOne, hl]

/-- A successful `FindByID` names the stored document it decoded. -/
theorem FindByID_ok_inv (s : UserStore) (id : String) (u : User)
    (h : (s.FindByID id).2 = (u, none)) :
    ∃ o d, ObjectIDFromHex id = .ok o ∧ lookup (.objectID o) s.coll.docs = some d ∧
      d.decode = u := by
  cases hp : ObjectIDFromHex id with
  | error e => simp [UserStore.FindByID, hp] at h
  | ok o =>
    cases hl : lookup (.objectID o) s.coll.docs with
    | none => simp [UserStore.FindByID, hp, Collection.FindOne, hl] at h
    | some d =>
      refine ⟨o, d, rfl, hl, ?_⟩
      simp [UserStore.FindByID, hp, Collection.FindOne, hl] at h
      exact h

/-- A `FindByID` that reports no document parsed the identifier and found
nothing under it. -/
theorem FindByID_none_inv (s : UserStore) (id : String)
    (h : (s.FindByID id).2.2 = some .ErrNoDocuments) :
    ∃ o, ObjectIDFromHex id = .ok o ∧ lookup (.objectID o) s.coll.docs = none := by
  cases hp : ObjectIDFromHex id with
  | error e =>
    have := ObjectIDFromHex_of_malformed id (fun hw => by
      obtain ⟨o, ho⟩ := ObjectIDFromHex_of_wellFormed id hw
      rw [hp] at ho; cases ho)
    rw [hp] at this
    cases this
    simp [UserStore.FindByID, hp] at h
  | ok o =>
    cases hl : lookup (.objectID o) s.coll.docs with
    | none => exact ⟨o, rfl, hl⟩
    | some d => simp [UserStore.FindByID, hp, Collection.FindOne, hl] at h

/-- The three update methods on a user that is not stored. -/
theorem UpdateOne_missing (c : Collection) (f : Filter) (u : Update)
    (hl : lookup (.objectID f._id) c.docs = none) :
    c.UpdateOne f u = ({ c with requests := c.requests + 1 }, .ok ⟨0, 0⟩) := by
  simp [Collection.UpdateOne, hl]

theorem UpdateOne_unmatched (c : Collection) (f : Filter) (u : Update) (d : Document)
    (hl : lookup (.objectID f._id) c.docs = some d) (hm : f.matchesPosts d = false) :
    c.UpdateOne f u = ({ c with requests := c.requests + 1 }, .ok ⟨0, 0⟩) := by
  simp [Collection.UpdateOne, hl, hm]

theorem UpdateOne_same (c : Collection) (f : Filter) (u : Update) (d : Document)
    (hl : lookup (.objectID f._id) c.docs = some d) (hm : f.matchesPosts d = true)
    (ha : applyUpdate f u d = .ok d) :
    c.UpdateOne f u = ({ c with requests := c.requests + 1 }, .ok ⟨1, 0⟩) := by
  simp [Collection.UpdateOne, hl, hm, ha]

theorem UpdateOne_changed (c : Collection) (f : Filter) (u : Update) (d d1 : Document)
    (hl : lookup (.objectID f._id) c.docs = some d) (hm : f.matchesPosts d = true)
    (ha : applyUpdate f u d = .ok d1) (hne : d1 ≠ d) :
    c.UpdateOne f u =
      ({ docs := replaceDoc (.objectID f._id) d1 c.docs, requests := c.requests + 1 },
        .ok ⟨1, 1⟩) := by
  simp [Collection.UpdateOne, hl, hm, ha, hne]

/-! ### Lists of posts -/

theorem hasID_iff (p : Post) (postID : String) :
    p.hasID postID = true ↔ p.ID ≠ "" ∧ p.ID = postID := by
  simp [Post.hasID]

theorem hasID_of_ne (p : Post) (postID : String) (h : p.ID ≠ postID) :
    p.hasID postID = false := by
  cases hb : p.hasID postID with
  | false => rfl
  | true => exact absurd ((hasID_iff p postID).mp hb).2 h

theorem hasID_empty (p : Post) : p.hasID "" = false := by
  cases hb : p.hasID "" with
  | false => rfl
  | true =>
    have := (hasID_iff p "").mp hb
    exact absurd this.2 this.1

theorem any_hasID_false (ps : List Post) (postID : String)
    (h : ∀ p ∈ ps, p.hasID postID = false) :
    ps.any (fun p => p.hasID postID) = false := by
  simp only [List.any_eq_false]
  intro p hp
  simp [h p hp]

theorem replaceFirst_none (q : Post → Bool) (p : Post) (ps : List Post)
    (h : ∀ x ∈ ps, q x = false) : replaceFirst q p ps = ps := by
  induction ps with
  | nil => rfl
  | cons x xs ih =>
    simp [replaceFirst, h x (List.mem_cons_self _ _),
      ih (fun y hy => h y (List.mem_cons_of_mem _ hy))]

theorem replaceFirst_split (q : Post → Bool) (p x : Post) (pre post : List Post)
    (hpre : ∀ y ∈ pre, q y = false) (hx : q x = true) :
    replaceFirst q p (pre ++ x :: post) = pre ++ p :: post := by
  induction pre with
  | nil => simp [replaceFirst, hx]
  | cons y ys ih =>
    simp [replaceFirst, hpre y (List.mem_cons_self _ _),
      ih (fun z hz => hpre z (List.mem_cons_of_mem _ hz))]

theorem filter_none (q : Post → Bool) (ps : List Post) (h : ∀ x ∈ ps, q x = false) :
    ps.filter (fun x => !q x) = ps := by
  rw [List.filter_eq_self]
  intro x hx
  simp [h x hx]

/-! ### The update methods on a stored user -/

theorem update_missing (s : UserStore) (userID : String) (o : ObjectID)
    (hp : ObjectIDFromHex userID = .ok o)
    (hl : lookup (.objectID o) s.coll.docs = none)
    (posts : List Post) (postID : String) (post : Post) :
    s.AddPosts userID posts
        = (⟨{ s.coll with requests := s.coll.requests + 1 }⟩, some .NoDocumentModified) ∧
    s.UpdatePost userID postID post
        = (⟨{ s.coll with requests := s.coll.requests + 1 }⟩, some .NoDocumentModified) ∧
    s.DeletePost userID postID
        = (⟨{ s.coll with requests := s.coll.requests + 1 }⟩, some .NoDocumentModified) := by
  refine ⟨?_, ?_, ?_⟩
  · simp [UserStore.AddPosts, hp, UpdateOne_missing _ ⟨o, none⟩ _ hl, checkModified]
  · simp [UserStore.UpdatePost, hp, UpdateOne_missing _ ⟨o, some postID⟩ _ hl, checkModified]
  · simp [UserStore.DeletePost, hp, UpdateOne_missing _ ⟨o, none⟩ _ hl, checkModified]

theorem FindByID_after_replace (c : Collection) (n : Nat) (id : String) (o : ObjectID)
    (d d1 : Document) (hp : ObjectIDFromHex id = .ok o)
    (hl : lookup (.objectID o) c.docs = some d) (hk : d1._id = d._id) :
    (UserStore.FindByID ⟨⟨replaceDoc (.objectID o) d1 c.docs, n⟩⟩ id).2 = (d1.decode, none) := by
  apply FindByID_found _ _ o d1 hp
  exact lookup_replaceDoc _ _ d d1 hl (hk.trans (lookup_key _ _ _ hl))

theorem FindByID_after_request (c : Collection) (n : Nat) (id : String) :
    (UserStore.FindByID ⟨{ c with requests := n }⟩ id).2 = (UserStore.FindByID ⟨c⟩ id).2 := by
  cases hp : ObjectIDFromHex id with
  | error e => simp [UserStore.FindByID, hp]
  | ok o =>
    cases hl : lookup (.objectID o) c.docs with
    | none => simp [UserStore.FindByID, hp, Collection.FindOne, hl]
    | some d => simp [UserStore.FindByID, hp, Collection.FindOne, hl]

theorem AddPosts_found (s : UserStore) (userID : String) (o : ObjectID) (d : Document)
    (qs : List Post) (hp : ObjectIDFromHex userID = .ok o)
    (hl : lookup (.objectID o) s.coll.docs = some d) (hqs : qs ≠ []) :
    s.AddPosts userID qs =
      (⟨⟨replaceDoc (.objectID o) { d with posts := d.posts ++ qs } s.coll.docs,
          s.coll.requests + 1⟩⟩, none) := by
  have hne : ({ d with posts := d.posts ++ qs } : Document) ≠ d := by
    rw [Ne, with_posts_eq_iff]
    simpa using hqs
  simp [UserStore.AddPosts, hp,
    UpdateOne_changed s.coll ⟨o, none⟩ (.pushEach qs) d _ hl rfl rfl hne, checkModified]

theorem AddPosts_nil_found (s : UserStore) (userID : String) (o : ObjectID) (d : Document)
    (hp : ObjectIDFromHex userID = .ok o)
    (hl : lookup (.objectID o) s.coll.docs = some d) :
    s.AddPosts userID [] =
      (⟨{ s.coll with requests := s.coll.requests + 1 }⟩, some .NoDocumentModified) := by
  have ha : applyUpdate ⟨o, none⟩ (.pushEach []) d = .ok d := by
    simp [applyUpdate]
  simp [UserStore.AddPosts, hp,
    UpdateOne_same s.coll ⟨o, none⟩ (.pushEach []) d hl rfl ha, checkModified]

theorem UpdatePost_unmatched (s : UserStore) (userID postID : String) (o : ObjectID)
    (d : Document) (post : Post) (hp : ObjectIDFromHex userID = .ok o)
    (hl : lookup (.objectID o) s.coll.docs = some d)
    (hno : ∀ p ∈ d.posts, p.hasID postID = false) :
    s.UpdatePost userID postID post =
      (⟨{ s.coll with requests := s.coll.requests + 1 }⟩, some .NoDocumentModified) := by
  have hm : Filter.matchesPosts ⟨o, some postID⟩ d = false := by
    simp only [Filter.matchesPosts]
    exact any_hasID_false _ _ hno
  simp [UserStore.UpdatePost, hp,
    UpdateOne_unmatched s.coll ⟨o, some postID⟩ (.setPositional post) d hl hm, checkModified]

theorem matchesPosts_split (o : ObjectID) (postID : String) (d : Document) (x : Post)
    (pre post : List Post) (hs : d.posts = pre ++ x :: post) (hx : x.hasID postID = true) :
    Filter.matchesPosts ⟨o, some postID⟩ d = true := by
  simp only [Filter.matchesPosts, hs, List.any_append, List.any_cons, hx, Bool.true_or,
    Bool.or_true]

theorem UpdatePost_found (s : UserStore) (userID postID : String) (o : ObjectID)
    (d : Document) (x newPost : Post) (pre post : List Post)
    (hp : ObjectIDFromHex userID = .ok o)
    (hl : lookup (.objectID o) s.coll.docs = some d)
    (hs : d.posts = pre ++ x :: post)
    (hpre : ∀ y ∈ pre, y.hasID postID = false) (hx : x.hasID postID = true)
    (hdiff : newPost ≠ x) :
    s.UpdatePost userID postID newPost =
      (⟨⟨replaceDoc (.objectID o) { d with posts := pre ++ newPost :: post } s.coll.docs,
          s.coll.requests + 1⟩⟩, none) := by
  have ha : applyUpdate ⟨o, some postID⟩ (.setPositional newPost) d
      = .ok { d with posts := pre ++ newPost :: post } := by
    simp only [applyUpdate, hs, replaceFirst_split _ newPost x pre post hpre hx]
  have hne : ({ d with posts := pre ++ newPost :: post } : Document) ≠ d := by
    rw [Ne, with_posts_eq_iff, hs]
    simpa using hdiff
  simp [UserStore.UpdatePost, hp,
    UpdateOne_changed s.coll ⟨o, some postID⟩ (.setPositional newPost) d _ hl
      (matchesPosts_split o postID d x pre post hs hx) ha hne, checkModified]

theorem UpdatePost_same (s : UserStore) (userID postID : String) (o : ObjectID)
    (d : Document) (x : Post) (pre post : List Post)
    (hp : ObjectIDFromHex userID = .ok o)
    (hl : lookup (.objectID o) s.coll.docs = some d)
    (hs : d.posts = pre ++ x :: post)
    (hpre : ∀ y ∈ pre, y.hasID postID = false) (hx : x.hasID postID = true) :
    s.UpdatePost userID postID x =
      (⟨{ s.coll with requests := s.coll.requests + 1 }⟩, some .NoDocumentModified) := by
  have ha : applyUpdate ⟨o, some postID⟩ (.setPositional x) d = .ok d := by
    have : ({ d with posts := pre ++ x :: post } : Document) = d :=
      (with_posts_eq_iff d _).mpr hs.symm
    simp only [applyUpdate, hs, replaceFirst_split _ x x pre post hpre hx]
    rw [this]
  simp [UserStore.UpdatePost, hp,
    UpdateOne_same s.coll ⟨o, some postID⟩ (.setPositional x) d hl
      (matchesPosts_split o postID d x pre post hs hx) ha, checkModified]

theorem DeletePost_unmatched (s : UserStore) (userID postID : String) (o : ObjectID)
    (d : Document) (hp : ObjectIDFromHex userID = .ok o)
    (hl : lookup (.objectID o) s.coll.docs = some d)
    (hno : ∀ p ∈ d.posts, p.hasID postID = false) :
    s.DeletePost userID postID =
      (⟨{ s.coll with requests := s.coll.requests + 1 }⟩, some .NoDocumentModified) := by
  have ha : applyUpdate ⟨o, none⟩ (.pull postID) d = .ok d := by
    simp only [applyUpdate, filter_none _ _ hno]
  simp [UserStore.DeletePost, hp,
    UpdateOne_same s.coll ⟨o, none⟩ (.pull postID) d hl rfl ha, checkModified]

theorem DeletePost_found (s : UserStore) (userID postID : String) (o : ObjectID)
    (d : Document) (x : Post) (hp : ObjectIDFromHex userID = .ok o)
    (hl : lookup (.objectID o) s.coll.docs = some d)
    (hmem : x ∈ d.posts) (hx : x.hasID postID = true) :
    s.DeletePost userID postID =
      (⟨⟨replaceDoc (.objectID o)
            { d with posts := d.posts.filter (fun y => !y.hasID postID) } s.coll.docs,
          s.coll.requests + 1⟩⟩, none) := by
  have hne : ({ d with posts := d.posts.filter (fun y => !y.hasID postID) } : Document)
      ≠ d := by
    rw [Ne, with_posts_eq_iff]
    intro h
    have : x ∈ d.posts.filter (fun y => !y.hasID postID) := by rw [h]; exact hmem
    simp [List.mem_filter, hx] at this
  simp [UserStore.DeletePost, hp,
    UpdateOne_changed s.coll ⟨o, none⟩ (.pull postID) d _ hl rfl rfl hne, checkModified]

theorem nodup_split (pre post : List Post) (x : Post)
    (h : ((pre ++ x :: post).map Post.ID).Nodup) :
    (∀ y ∈ pre, y.ID ≠ x.ID) ∧ (∀ y ∈ post, y.ID ≠ x.ID) := by
  simp only [List.map_append, List.map_cons] at h
  rw [List.nodup_append] at h
  obtain ⟨_, h2, h3⟩ := h
  rw [List.nodup_cons] at h2
  refine ⟨?_, ?_⟩
  · intro y hy he
    exact h3 (List.mem_map_of_mem _ hy) (by rw [he]; exact List.mem_cons_self _ _)
  · intro y hy he
    exact h2.1 (by rw [← he]; exact List.mem_map_of_mem _ hy)

theorem filter_split (postID : String) (pre post : List Post) (x : Post)
    (hpre : ∀ y ∈ pre, y.hasID postID = false) (hpost : ∀ y ∈ post, y.hasID postID = false)
    (hx : x.hasID postID = true) :
    (pre ++ x :: post).filter (fun y => !y.hasID postID) = pre ++ post := by
  rw [List.filter_append, List.filter_cons, filter_none _ pre hpre, filter_none _ post hpost]
  simp [hx]

theorem filter_hasID_eq (postID : String) (hne : postID ≠ "") (ps : List Post) :
    ps.filter (fun y => !y.hasID postID) = ps.filter (fun y => decide (y.ID ≠ postID)) := by
  apply List.filter_congr
  intro y _
  by_cases h : y.ID = postID
  · have : y.hasID postID = true := (hasID_iff y postID).mpr ⟨by rw [h]; exact hne, h⟩
    simp [this, h]
  · simp [hasID_of_ne y postID h, h]

/-! ## The claims -/

/-- C1: on a store where `FindByID userID` returns the user `u`, `AddPosts`
with a non-empty list `qs` returns no error, and `FindByID userID` afterwards
returns the same user with the post sequence `u.Posts ++ qs`. -/
theorem AddPosts_appends (s : UserStore) (userID : String) (u : User) (qs : List Post)
    (hfind : (s.FindByID userID).2 = (u, none)) (hqs : qs ≠ []) :
    (s.AddPosts userID qs).2 = none ∧
    ((s.AddPosts userID qs).1.FindByID userID).2 = ({ u with Posts := u.Posts ++ qs }, none) ∧
    (u.Posts ++ qs).length = u.Posts.length + qs.length := by
  obtain ⟨o, d, hp, hl, hd⟩ := FindByID_ok_inv s userID u hfind
  rw [AddPosts_found s userID o d qs hp hl hqs]
  refine ⟨rfl, ?_, List.length_append _ _⟩
  show (UserStore.FindByID ⟨⟨replaceDoc (.objectID o) { d with posts := d.posts ++ qs }
    s.coll.docs, s.coll.requests + 1⟩⟩ userID).2 = _
  rw [FindByID_after_replace s.coll _ userID o d { d with posts := d.posts ++ qs } hp hl rfl,
    decode_with_posts, ← hd]
  rfl

/-- The demonstration of `main`: a user holding `[p1]` holds `[p1, p2, p3]`
after `AddPosts(id, p2, p3)`. -/
theorem AddPosts_appends_witness :
    ((storeWith [p1]).AddPosts sampleID [p2, p3]).2 = none ∧
    (((storeWith [p1]).AddPosts sampleID [p2, p3]).1.FindByID sampleID).2
      = ({ (⟨sampleID, "tira", [p1]⟩ : User) with Posts := [p1] ++ [p2, p3] }, none) ∧
    ([p1] ++ [p2, p3]).length = [p1].length + [p2, p3].length :=
  AddPosts_appends (storeWith [p1]) sampleID ⟨sampleID, "tira", [p1]⟩ [p2, p3]
    (by decide) (by decide)

/-- C2, as stated, fails: after `Insert` of a user whose post `q1` has the
empty identifier, `FindByID` shows a post with identifier `""`, the
replacement `p1` differs from it, and `UpdatePost(id, "", p1)` returns
"no document modified" and leaves `q1` in place. -/
theorem UpdatePost_empty_postID_counterexample :
    (emptyStore.Insert sampleKey ⟨"", "tira", [q1]⟩).2
      = .returned (⟨sampleID, "tira", [q1]⟩, none) ∧
    ((insertedStore [q1]).FindByID sampleID).2 = (⟨sampleID, "tira", [q1]⟩, none) ∧
    q1.ID = "" ∧ p1 ≠ q1 ∧
    ((insertedStore [q1]).UpdatePost sampleID "" p1).2 = some .NoDocumentModified ∧
    (((insertedStore [q1]).UpdatePost sampleID "" p1).1.FindByID sampleID).2
      = (⟨sampleID, "tira", [q1]⟩, none) := by
  decide

/-- C2, amended: on a store where `FindByID userID` returns `u`, if `postID`
is not empty, `x` is the first post of `u` with identifier `postID` and
`newPost` differs from `x`, then `UpdatePost` returns no error and `FindByID`
afterwards returns `u` with `newPost` in the place of `x`: same length, every
other position unchanged, whatever the identifier of `newPost`. -/
theorem UpdatePost_replaces (s : UserStore) (userID postID : String) (u : User)
    (x newPost : Post) (pre post : List Post)
    (hfind : (s.FindByID userID).2 = (u, none))
    (hne : postID ≠ "")
    (hs : u.Posts = pre ++ x :: post)
    (hpre : ∀ y ∈ pre, y.ID ≠ postID) (hx : x.ID = postID)
    (hdiff : newPost ≠ x) :
    (s.UpdatePost userID postID newPost).2 = none ∧
    ((s.UpdatePost userID postID newPost).1.FindByID userID).2
      = ({ u with Posts := pre ++ newPost :: post }, none) ∧
    (pre ++ newPost :: post).length = u.Posts.length := by
  obtain ⟨o, d, hp, hl, hd⟩ := FindByID_ok_inv s userID u hfind
  have hs1 : d.posts = pre ++ x :: post := by rw [← hs, ← hd]; rfl
  have hx1 : x.hasID postID = true := (hasID_iff x postID).mpr ⟨by rw [hx]; exact hne, hx⟩
  rw [UpdatePost_found s userID postID o d x newPost pre post hp hl hs1
    (fun y hy => hasID_of_ne y postID (hpre y hy)) hx1 hdiff]
  refine ⟨rfl, ?_, by simp [hs]⟩
  show (UserStore.FindByID ⟨⟨replaceDoc (.objectID o) { d with posts := pre ++ newPost :: post }
    s.coll.docs, s.coll.requests + 1⟩⟩ userID).2 = _
  rw [FindByID_after_replace s.coll _ userID o d { d with posts := pre ++ newPost :: post }
    hp hl rfl, decode_with_posts, ← hd]

/-- The update of `main`: the post `p3` of `[p1, p2, p3]` is replaced by a
post with another identifier and other contents. -/
theorem UpdatePost_replaces_witness :
    ((storeWith [p1, p2, p3]).UpdatePost sampleID "p3" ⟨"p9", "my updated title", "b", 1⟩).2
      = none ∧
    (((storeWith [p1, p2, p3]).UpdatePost sampleID "p3"
        ⟨"p9", "my updated title", "b", 1⟩).1.FindByID sampleID).2
      = ({ (⟨sampleID, "tira", [p1, p2, p3]⟩ : User) with
            Posts := [p1, p2] ++ ⟨"p9", "my updated title", "b", 1⟩ :: [] }, none) ∧
    ([p1, p2] ++ (⟨"p9", "my updated title", "b", 1⟩ : Post) :: []).length
      = (⟨sampleID, "tira", [p1, p2, p3]⟩ : User).Posts.length :=
  UpdatePost_replaces (storeWith [p1, p2, p3]) sampleID "p3" ⟨sampleID, "tira", [p1, p2, p3]⟩
    p3 ⟨"p9", "my updated title", "b", 1⟩ [p1, p2] []
    (by decide) (by decide) (by decide) (by decide) (by decide) (by decide)

/-- C3, as stated, fails: after `Insert` of a user with the posts `q1`, `p1`
the identifiers `""`, `"p1"` are unique, the sequence contains a post with
identifier `""`, and `DeletePost(id, "")` returns "no document modified" and
removes nothing. -/
theorem DeletePost_empty_postID_counterexample :
    (emptyStore.Insert sampleKey ⟨"", "tira", [q1, p1]⟩).2
      = .returned (⟨sampleID, "tira", [q1, p1]⟩, none) ∧
    ((insertedStore [q1, p1]).FindByID sampleID).2
      = (⟨sampleID, "tira", [q1, p1]⟩, none) ∧
    ([q1, p1].map Post.ID).Nodup ∧ q1.ID = "" ∧
    ((insertedStore [q1, p1]).DeletePost sampleID "").2 = some .NoDocumentModified ∧
    (((insertedStore [q1, p1]).DeletePost sampleID "").1.FindByID sampleID).2
      = (⟨sampleID, "tira", [q1, p1]⟩, none) := by
  decide

/-- C3, amended: on a store where `FindByID userID` returns `u`, if the post
identifiers of `u` are unique, `postID` is not empty and `x` is the post of
`u` with identifier `postID`, then `DeletePost` returns no error and `FindByID`
afterwards returns `u` without `x`, the other posts in their order, one post
fewer. -/
theorem DeletePost_removes (s : UserStore) (userID postID : String) (u : User)
    (x : Post) (pre post : List Post)
    (hfind : (s.FindByID userID).2 = (u, none))
    (hnodup : (u.Posts.map Post.ID).Nodup)
    (hne : postID ≠ "")
    (hs : u.Posts = pre ++ x :: post) (hx : x.ID = postID) :
    (s.DeletePost userID postID).2 = none ∧
    ((s.DeletePost userID postID).1.FindByID userID).2
      = ({ u with Posts := pre ++ post }, none) ∧
    (pre ++ post).length + 1 = u.Posts.length := by
  obtain ⟨o, d, hp, hl, hd⟩ := FindByID_ok_inv s userID u hfind
  have hs1 : d.posts = pre ++ x :: post := by rw [← hs, ← hd]; rfl
  have hx1 : x.hasID postID = true := (hasID_iff x postID).mpr ⟨by rw [hx]; exact hne, hx⟩
  rw [hs] at hnodup
  obtain ⟨h1, h2⟩ := nodup_split pre post x hnodup
  rw [hx] at h1 h2
  rw [DeletePost_found s userID postID o d x hp hl (by rw [hs1]; simp) hx1]
  refine ⟨rfl, ?_, by simp only [hs, List.length_append, List.length_cons]; omega⟩
  show (UserStore.FindByID ⟨⟨replaceDoc (.objectID o)
    { d with posts := d.posts.filter (fun y => !y.hasID postID) }
    s.coll.docs, s.coll.requests + 1⟩⟩ userID).2 = _
  rw [FindByID_after_replace s.coll _ userID o d
    { d with posts := d.posts.filter (fun y => !y.hasID postID) } hp hl rfl,
    decode_with_posts, ← hd, hs1,
    filter_split postID pre post x (fun y hy => hasID_of_ne y postID (h1 y hy))
      (fun y hy => hasID_of_ne y postID (h2 y hy)) hx1]

/-- The deletion of `main`: `p3` is taken out of `[p1, p2, p3]`; and `p2`
out of the middle. -/
theorem DeletePost_removes_witness :
    ((storeWith [p1, p2, p3]).DeletePost sampleID "p2").2 = none ∧
    (((storeWith [p1, p2, p3]).DeletePost sampleID "p2").1.FindByID sampleID).2
      = ({ (⟨sampleID, "tira", [p1, p2, p3]⟩ : User) with Posts := [p1] ++ [p3] }, none) ∧
    ([p1] ++ [p3]).length + 1 = (⟨sampleID, "tira", [p1, p2, p3]⟩ : User).Posts.length :=
  DeletePost_removes (storeWith [p1, p2, p3]) sampleID "p2" ⟨sampleID, "tira", [p1, p2, p3]⟩
    p2 [p1] [p3] (by decide) (by decide) (by decide) (by decide) (by decide)

/-- C4: for a user `u` with empty `ID`, when `Insert` returns the user `r`
and no error, `r.ID` is the rendering of the generated key (24 hexadecimal
characters, not empty), `r` has the username and posts of `u`, and
`FindByID r.ID` on the resulting store returns `r` and no error. -/
theorem Insert_then_FindByID (s : UserStore) (gen : ObjectID) (u r : User)
    (hid : u.ID = "") (hins : (s.Insert gen u).2 = .returned (r, none)) :
    r.ID = gen.Hex ∧ r.ID ≠ "" ∧ WellFormedID r.ID ∧
    r.Username = u.Username ∧ r.Posts = u.Posts ∧
    ((s.Insert gen u).1.FindByID r.ID).2 = (r, none) := by
  have hlen : gen.Hex.length = 24 := by
    show (encodeHex gen.val).length = 24
    rw [length_encodeHex, gen.property]
  cases hl : lookup (.objectID gen) s.coll.docs with
  | some d0 =>
    simp [UserStore.Insert, Collection.InsertOne, hid, hl] at hins
  | none =>
    have hr : r = { u with ID := gen.Hex } := by
      simp [UserStore.Insert, Collection.InsertOne, hid, hl] at hins
      exact hins.symm
    subst hr
    refine ⟨rfl, ?_, ⟨hlen, isHexChar_encodeHex gen.val⟩, rfl, rfl, ?_⟩
    · intro h0
      have h1 : gen.Hex = "" := h0
      have : gen.Hex.length = 0 := by rw [h1]; rfl
      omega
    · have hst : (s.Insert gen u).1
          = ⟨⟨s.coll.docs ++ [⟨.objectID gen, u.Username, u.Posts⟩], s.coll.requests + 1⟩⟩ := by
        simp [UserStore.Insert, Collection.InsertOne, hid, hl]
      rw [hst]
      exact FindByID_found _ gen.Hex gen ⟨.objectID gen, u.Username, u.Posts⟩
        (ObjectIDFromHex_Hex gen) (lookup_append_new _ _ _ hl rfl)

/-- The insertion of `main`: user "tira" with one post, into the empty
collection. -/
theorem Insert_then_FindByID_witness :
    (⟨sampleID, "tira", [p1]⟩ : User).ID = sampleKey.Hex ∧
    (⟨sampleID, "tira", [p1]⟩ : User).ID ≠ "" ∧
    WellFormedID (⟨sampleID, "tira", [p1]⟩ : User).ID ∧
    (⟨sampleID, "tira", [p1]⟩ : User).Username = (⟨"", "tira", [p1]⟩ : User).Username ∧
    (⟨sampleID, "tira", [p1]⟩ : User).Posts = (⟨"", "tira", [p1]⟩ : User).Posts ∧
    ((emptyStore.Insert sampleKey ⟨"", "tira", [p1]⟩).1.FindByID
        (⟨sampleID, "tira", [p1]⟩ : User).ID).2 = (⟨sampleID, "tira", [p1]⟩, none) :=
  Insert_then_FindByID emptyStore sampleKey ⟨"", "tira", [p1]⟩ ⟨sampleID, "tira", [p1]⟩
    (by decide) (by decide)

/-- C5: for a malformed identifier (not exactly 24 hexadecimal characters)
each of `FindByID`, `AddPosts`, `UpdatePost`, `DeletePost` returns the
validation error and the store it was given, request counter included;
`FindByID` returns the zero `User`. -/
theorem malformed_id_rejected (s : UserStore) (id postID : String) (posts : List Post)
    (post : Post) (h : ¬ WellFormedID id) :
    s.FindByID id = (s, (User.zero, some .ErrInvalidHex)) ∧
    s.AddPosts id posts = (s, some .ErrInvalidHex) ∧
    s.UpdatePost id postID post = (s, some .ErrInvalidHex) ∧
    s.DeletePost id postID = (s, some .ErrInvalidHex) := by
  have hp := ObjectIDFromHex_of_malformed id h
  simp [UserStore.FindByID, UserStore.AddPosts, UserStore.UpdatePost, UserStore.DeletePost, hp]

/-- A 23-character identifier on a store that holds a user. -/
theorem malformed_id_rejected_witness :
    ¬ WellFormedID "654f1a2b3c4d5e6f7081920" ∧
    ((storeWith [p1]).FindByID "654f1a2b3c4d5e6f7081920"
        = (storeWith [p1], (User.zero, some .ErrInvalidHex)) ∧
      (storeWith [p1]).AddPosts "654f1a2b3c4d5e6f7081920" [p2]
        = (storeWith [p1], some .ErrInvalidHex) ∧
      (storeWith [p1]).UpdatePost "654f1a2b3c4d5e6f7081920" "p1" p2
        = (storeWith [p1], some .ErrInvalidHex) ∧
      (storeWith [p1]).DeletePost "654f1a2b3c4d5e6f7081920" "p1"
        = (storeWith [p1], some .ErrInvalidHex)) :=
  ⟨by decide, malformed_id_rejected (storeWith [p1]) "654f1a2b3c4d5e6f7081920" "p1" [p2] p2
    (by decide)⟩

/-- C6: for a well-formed `userID` under which `FindByID` finds no document,
`AddPosts`, `UpdatePost` and `DeletePost` return "no document modified" for
all post arguments, and the documents of the collection are as before. -/
theorem missing_user_not_modified (s : UserStore) (userID postID : String)
    (posts : List Post) (post : Post)
    (_hwf : WellFormedID userID)
    (hmiss : (s.FindByID userID).2.2 = some .ErrNoDocuments) :
    ((s.AddPosts userID posts).2 = some .NoDocumentModified ∧
      (s.AddPosts userID posts).1.coll.docs = s.coll.docs) ∧
    ((s.UpdatePost userID postID post).2 = some .NoDocumentModified ∧
      (s.UpdatePost userID postID post).1.coll.docs = s.coll.docs) ∧
    ((s.DeletePost userID postID).2 = some .NoDocumentModified ∧
      (s.DeletePost userID postID).1.coll.docs = s.coll.docs) := by
  obtain ⟨o, hp, hl⟩ := FindByID_none_inv s userID hmiss
  obtain ⟨h1, h2, h3⟩ := update_missing s userID o hp hl posts postID post
  rw [h1, h2, h3]
  exact ⟨⟨rfl, rfl⟩, ⟨rfl, rfl⟩, ⟨rfl, rfl⟩⟩

/-- A well-formed identifier other than the one of the stored user. -/
theorem missing_user_not_modified_witness :
    WellFormedID "000000000000000000000000" ∧
    (((storeWith [p1]).AddPosts "000000000000000000000000" [p2]).2
        = some .NoDocumentModified ∧
      ((storeWith [p1]).AddPosts "000000000000000000000000" [p2]).1.coll.docs
        = (storeWith [p1]).coll.docs) ∧
    (((storeWith [p1]).UpdatePost "000000000000000000000000" "p1" p2).2
        = some .NoDocumentModified ∧
      ((storeWith [p1]).UpdatePost "000000000000000000000000" "p1" p2).1.coll.docs
        = (storeWith [p1]).coll.docs) ∧
    (((storeWith [p1]).DeletePost "000000000000000000000000" "p1").2
        = some .NoDocumentModified ∧
      ((storeWith [p1]).DeletePost "000000000000000000000000" "p1").1.coll.docs
        = (storeWith [p1]).coll.docs) :=
  ⟨by decide, missing_user_not_modified (storeWith [p1]) "000000000000000000000000" "p1"
    [p2] p2 (by decide) (by decide)⟩

/-- C7: on a store where `FindByID userID` returns `u`, if no post of `u`
has the identifier `postID`, then `UpdatePost` (for every replacement) and
`DeletePost` return "no document modified", and `FindByID userID` afterwards
returns `u` as before. -/
theorem unmatched_post_not_modified (s : UserStore) (userID postID : String) (u : User)
    (post : Post)
    (hfind : (s.FindByID userID).2 = (u, none))
    (hno : ∀ p ∈ u.Posts, p.ID ≠ postID) :
    ((s.UpdatePost userID postID post).2 = some .NoDocumentModified ∧
      ((s.UpdatePost userID postID post).1.FindByID userID).2 = (u, none)) ∧
    ((s.DeletePost userID postID).2 = some .NoDocumentModified ∧
      ((s.DeletePost userID postID).1.FindByID userID).2 = (u, none)) := by
  obtain ⟨o, d, hp, hl, hd⟩ := FindByID_ok_inv s userID u hfind
  have hno1 : ∀ p ∈ d.posts, p.hasID postID = false := by
    intro p hmem
    apply hasID_of_ne
    apply hno
    rw [← hd]
    exact hmem
  rw [UpdatePost_unmatched s userID postID o d post hp hl hno1,
    DeletePost_unmatched s userID postID o d hp hl hno1]
  refine ⟨⟨rfl, ?_⟩, ⟨rfl, ?_⟩⟩
  · exact (FindByID_after_request s.coll _ userID).trans hfind
  · exact (FindByID_after_request s.coll _ userID).trans hfind

/-- The user holds `[p1, p2]`; no post has the identifier `"p3"`. -/
theorem unmatched_post_not_modified_witness :
    (((storeWith [p1, p2]).UpdatePost sampleID "p3" p3).2 = some .NoDocumentModified ∧
      (((storeWith [p1, p2]).UpdatePost sampleID "p3" p3).1.FindByID sampleID).2
        = (⟨sampleID, "tira", [p1, p2]⟩, none)) ∧
    (((storeWith [p1, p2]).DeletePost sampleID "p3").2 = some .NoDocumentModified ∧
      (((storeWith [p1, p2]).DeletePost sampleID "p3").1.FindByID sampleID).2
        = (⟨sampleID, "tira", [p1, p2]⟩, none)) :=
  unmatched_post_not_modified (storeWith [p1, p2]) sampleID "p3" ⟨sampleID, "tira", [p1, p2]⟩
    p3 (by decide) (by decide)

/-- C8: on a store where `FindByID userID` returns `u`, when `p` is the post
of `u` that `postID` addresses (the first with that identifier), `UpdatePost`
with `p` itself as replacement returns "no document modified" and leaves the
documents as they were; the error is the one `UpdatePost` returns for a user
that is not stored and for a user without such a post. -/
theorem UpdatePost_identical_not_modified (s : UserStore) (userID postID : String)
    (u : User) (p : Post) (pre post : List Post)
    (hfind : (s.FindByID userID).2 = (u, none))
    (hs : u.Posts = pre ++ p :: post)
    (hpre : ∀ y ∈ pre, y.ID ≠ postID) (hp : p.ID = postID) :
    (s.UpdatePost userID postID p).2 = some .NoDocumentModified ∧
    ((s.UpdatePost userID postID p).2.map Error.text) = some "no document modified" ∧
    (s.UpdatePost userID postID p).1.coll.docs = s.coll.docs ∧
    ((s.UpdatePost userID postID p).1.FindByID userID).2 = (u, none) ∧
    (∀ (s2 : UserStore) (userID2 postID2 : String) (q : Post),
      (s2.FindByID userID2).2.2 = some .ErrNoDocuments →
      (s2.UpdatePost userID2 postID2 q).2 = (s.UpdatePost userID postID p).2) ∧
    (∀ (s2 : UserStore) (userID2 postID2 : String) (u2 : User) (q : Post),
      (s2.FindByID userID2).2 = (u2, none) → (∀ y ∈ u2.Posts, y.ID ≠ postID2) →
      (s2.UpdatePost userID2 postID2 q).2 = (s.UpdatePost userID postID p).2) := by
  obtain ⟨o, d, hpo, hl, hd⟩ := FindByID_ok_inv s userID u hfind
  have hs1 : d.posts = pre ++ p :: post := by rw [← hs, ← hd]; rfl
  have hres : s.UpdatePost userID postID p =
      (⟨{ s.coll with requests := s.coll.requests + 1 }⟩, some .NoDocumentModified) := by
    by_cases hne : postID = ""
    · subst hne
      exact UpdatePost_unmatched s userID "" o d p hpo hl (fun y _ => hasID_empty y)
    · exact UpdatePost_same s userID postID o d p pre post hpo hl hs1
        (fun y hy => hasID_of_ne y postID (hpre y hy))
        ((hasID_iff p postID).mpr ⟨by rw [hp]; exact hne, hp⟩)
  rw [hres]
  refine ⟨rfl, rfl, rfl, (FindByID_after_request s.coll _ userID).trans hfind, ?_, ?_⟩
  · intro s2 userID2 postID2 q hmiss
    obtain ⟨o2, hp2, hl2⟩ := FindByID_none_inv s2 userID2 hmiss
    rw [(update_missing s2 userID2 o2 hp2 hl2 [] postID2 q).2.1]
  · intro s2 userID2 postID2 u2 q hfind2 hno2
    obtain ⟨o2, d2, hp2, hl2, hd2⟩ := FindByID_ok_inv s2 userID2 u2 hfind2
    rw [UpdatePost_unmatched s2 userID2 postID2 o2 d2 q hp2 hl2
      (fun y hy => hasID_of_ne y postID2 (hno2 y (by rw [← hd2]; exact hy)))]

/-- The update of `main` run a second time with the stored value. -/
theorem UpdatePost_identical_not_modified_witness :
    ((storeWith [p1, p2]).UpdatePost sampleID "p2" p2).2 = some .NoDocumentModified ∧
    (((storeWith [p1, p2]).UpdatePost sampleID "p2" p2).2.map Error.text)
      = some "no document modified" ∧
    ((storeWith [p1, p2]).UpdatePost sampleID "p2" p2).1.coll.docs
      = (storeWith [p1, p2]).coll.docs ∧
    (((storeWith [p1, p2]).UpdatePost sampleID "p2" p2).1.FindByID sampleID).2
      = (⟨sampleID, "tira", [p1, p2]⟩, none) ∧
    (∀ (s2 : UserStore) (userID2 postID2 : String) (q : Post),
      (s2.FindByID userID2).2.2 = some .ErrNoDocuments →
      (s2.UpdatePost userID2 postID2 q).2
        = ((storeWith [p1, p2]).UpdatePost sampleID "p2" p2).2) ∧
    (∀ (s2 : UserStore) (userID2 postID2 : String) (u2 : User) (q : Post),
      (s2.FindByID userID2).2 = (u2, none) → (∀ y ∈ u2.Posts, y.ID ≠ postID2) →
      (s2.UpdatePost userID2 postID2 q).2
        = ((storeWith [p1, p2]).UpdatePost sampleID "p2" p2).2) :=
  UpdatePost_identical_not_modified (storeWith [p1, p2]) sampleID "p2"
    ⟨sampleID, "tira", [p1, p2]⟩ p2 [p1] [] (by decide) (by decide) (by decide) (by decide)

/-- C9, as stated, fails: after `Insert` of a user with the posts `q1`,
`q2`, `p1`, two posts have the identifier `""`; `UpdatePost(id, "", p2)` does
not replace the first of them and `DeletePost(id, "")` removes neither. -/
theorem duplicate_empty_postID_counterexample :
    (emptyStore.Insert sampleKey ⟨"", "tira", [q1, q2, p1]⟩).2
      = .returned (⟨sampleID, "tira", [q1, q2, p1]⟩, none) ∧
    ((insertedStore [q1, q2, p1]).FindByID sampleID).2
      = (⟨sampleID, "tira", [q1, q2, p1]⟩, none) ∧
    q1.ID = "" ∧ q2.ID = "" ∧
    (((insertedStore [q1, q2, p1]).UpdatePost sampleID "" p2).1.FindByID sampleID).2
      = (⟨sampleID, "tira", [q1, q2, p1]⟩, none) ∧
    (((insertedStore [q1, q2, p1]).DeletePost sampleID "").1.FindByID sampleID).2
      = (⟨sampleID, "tira", [q1, q2, p1]⟩, none) := by
  decide

/-- C9, amended: for a non-empty `postID`, on a store where `FindByID userID`
returns `u` and `x` is the first post of `u` with identifier `postID`,
`UpdatePost` leaves a sequence in which `newPost` stands in the place of `x`
and all posts after it, further posts with identifier `postID` included, are
unchanged; `DeletePost` returns no error and leaves exactly the posts whose
identifier is not `postID`, in their order, so none with that identifier
remains. -/
theorem duplicate_postID_update_first_delete_all (s : UserStore) (userID postID : String)
    (u : User) (x newPost : Post) (pre post : List Post)
    (hfind : (s.FindByID userID).2 = (u, none))
    (hne : postID ≠ "")
    (hs : u.Posts = pre ++ x :: post)
    (hpre : ∀ y ∈ pre, y.ID ≠ postID) (hx : x.ID = postID) :
    ((s.UpdatePost userID postID newPost).1.FindByID userID).2
      = ({ u with Posts := pre ++ newPost :: post }, none) ∧
    (s.DeletePost userID postID).2 = none ∧
    ((s.DeletePost userID postID).1.FindByID userID).2
      = ({ u with Posts := u.Posts.filter (fun y => decide (y.ID ≠ postID)) }, none) ∧
    (∀ y ∈ u.Posts.filter (fun y => decide (y.ID ≠ postID)), y.ID ≠ postID) := by
  obtain ⟨o, d, hp, hl, hd⟩ := FindByID_ok_inv s userID u hfind
  have hs1 : d.posts = pre ++ x :: post := by rw [← hs, ← hd]; rfl
  have hx1 : x.hasID postID = true := (hasID_iff x postID).mpr ⟨by rw [hx]; exact hne, hx⟩
  have hpre1 : ∀ y ∈ pre, y.hasID postID = false := fun y hy => hasID_of_ne y postID (hpre y hy)
  refine ⟨?_, ?_, ?_, ?_⟩
  · by_cases hdiff : newPost = x
    · subst hdiff
      rw [UpdatePost_same s userID postID o d newPost pre post hp hl hs1 hpre1 hx1]
      refine (FindByID_after_request s.coll _ userID).trans (hfind.trans ?_)
      rw [← hs]
    · rw [UpdatePost_found s userID postID o d x newPost pre post hp hl hs1 hpre1 hx1 hdiff]
      show (UserStore.FindByID ⟨⟨replaceDoc (.objectID o)
        { d with posts := pre ++ newPost :: post } s.coll.docs, s.coll.requests + 1⟩⟩
        userID).2 = _
      rw [FindByID_after_replace s.coll _ userID o d
        { d with posts := pre ++ newPost :: post } hp hl rfl, decode_with_posts, ← hd]
  · rw [DeletePost_found s userID postID o d x hp hl (by rw [hs1]; simp) hx1]
  · rw [DeletePost_found s userID postID o d x hp hl (by rw [hs1]; simp) hx1]
    show (UserStore.FindByID ⟨⟨replaceDoc (.objectID o)
      { d with posts := d.posts.filter (fun y => !y.hasID postID) }
      s.coll.docs, s.coll.requests + 1⟩⟩ userID).2 = _
    rw [FindByID_after_replace s.coll _ userID o d
      { d with posts := d.posts.filter (fun y => !y.hasID postID) } hp hl rfl,
      decode_with_posts, filter_hasID_eq postID hne, ← hd]
    rfl
  · intro y hy
    simpa using (List.mem_filter.mp hy).2

/-- Two posts share the identifier `"p2"`: the update touches the first of
them only, the deletion removes both. -/
theorem duplicate_postID_update_first_delete_all_witness :
    (((storeWith [p1, p2, p3, ⟨"p2", "zz", "yy", 7⟩]).UpdatePost sampleID "p2"
        ⟨"p2", "new", "new", 8⟩).1.FindByID sampleID).2
      = ({ (⟨sampleID, "tira", [p1, p2, p3, ⟨"p2", "zz", "yy", 7⟩]⟩ : User) with
            Posts := [p1] ++ ⟨"p2", "new", "new", 8⟩ :: [p3, ⟨"p2", "zz", "yy", 7⟩] }, none) ∧
    ((storeWith [p1, p2, p3, ⟨"p2", "zz", "yy", 7⟩]).DeletePost sampleID "p2").2 = none ∧
    (((storeWith [p1, p2, p3, ⟨"p2", "zz", "yy", 7⟩]).DeletePost sampleID "p2").1.FindByID
        sampleID).2
      = ({ (⟨sampleID, "tira", [p1, p2, p3, ⟨"p2", "zz", "yy", 7⟩]⟩ : User) with
            Posts := (⟨sampleID, "tira", [p1, p2, p3, ⟨"p2", "zz", "yy", 7⟩]⟩ : User).Posts.filter
              (fun y => decide (y.ID ≠ "p2")) }, none) ∧
    (∀ y ∈ (⟨sampleID, "tira", [p1, p2, p3, ⟨"p2", "zz", "yy", 7⟩]⟩ : User).Posts.filter
        (fun y => decide (y.ID ≠ "p2")), y.ID ≠ "p2") :=
  duplicate_postID_update_first_delete_all (storeWith [p1, p2, p3, ⟨"p2", "zz", "yy", 7⟩])
    sampleID "p2" ⟨sampleID, "tira", [p1, p2, p3, ⟨"p2", "zz", "yy", 7⟩]⟩ p2
    ⟨"p2", "new", "new", 8⟩ [p1] [p3, ⟨"p2", "zz", "yy", 7⟩]
    (by decide) (by decide) (by decide) (by decide) (by decide)

/-- C10: for a well-formed `userID`, stored or not, `AddPosts` with no posts
returns an error, the documents of the collection are as before, and
`FindByID userID` answers afterwards what it answered before. -/
theorem AddPosts_nil_fails (s : UserStore) (userID : String)
    (hwf : WellFormedID userID) :
    (s.AddPosts userID []).2 ≠ none ∧
    (s.AddPosts userID []).1.coll.docs = s.coll.docs ∧
    ((s.AddPosts userID []).1.FindByID userID).2 = (s.FindByID userID).2 := by
  obtain ⟨o, hp⟩ := ObjectIDFromHex_of_wellFormed userID hwf
  have hres : s.AddPosts userID [] =
      (⟨{ s.coll with requests := s.coll.requests + 1 }⟩, some .NoDocumentModified) := by
    cases hl : lookup (.objectID o) s.coll.docs with
    | none => exact (update_missing s userID o hp hl [] "" p1).1
    | some d => exact AddPosts_nil_found s userID o d hp hl
  rw [hres]
  exact ⟨by simp, rfl, FindByID_after_request s.coll _ userID⟩

/-- A stored user: `AddPosts(id)` with no posts. -/
theorem AddPosts_nil_fails_witness :
    WellFormedID sampleID ∧
    ((storeWith [p1]).AddPosts sampleID []).2 ≠ none ∧
    ((storeWith [p1]).AddPosts sampleID []).1.coll.docs = (storeWith [p1]).coll.docs ∧
    (((storeWith [p1]).AddPosts sampleID []).1.FindByID sampleID).2
      = ((storeWith [p1]).FindByID sampleID).2 :=
  ⟨by decide, AddPosts_nil_fails (storeWith [p1]) sampleID (by decide)⟩

end MongoCrud
